import Mathlib

/-!
Shallow embedding of `wrf_tools` (files `wrf_tools/wrf_client.py` and
`wrf_tools/annotation.py`) and proofs about it.

Python dictionaries are modelled as insertion-ordered association lists
(`List (κ × α)`): assigning to an existing key updates the value in place
(keeping the key's position), assigning a fresh key appends, and deletion
filters the key out — exactly CPython's `dict` observable semantics.
Python values stored in annotation/point dictionaries are modelled by `PyVal`.
File system and HTTP effects are modelled by explicit state passing: the file
system is a map from paths (component lists) to response bodies, the HTTP
client is an abstract function from URLs to bodies, and `AnnotationManager`
carries a `writes` log recording each full document dumped to the YAML file.
-/

/-- Values that may appear in the YAML annotation/point dictionaries. -/
inductive PyVal where
  | str (s : String)
  | int (n : Int)
  deriving DecidableEq, Repr

/-- Insertion-ordered dictionary, as CPython's `dict`. -/
abbrev PyDictOf (κ α : Type) : Type := List (κ × α)

namespace PyDictOf

variable {κ α : Type} [DecidableEq κ]

/-- Python `d.get(k)` / `k in d`: first (and only, for dicts built by the
operations here) binding of `k`. -/
def get (l : PyDictOf κ α) (k : κ) : Option α :=
  (l.find? (fun p => decide (p.1 = k))).map (·.2)

/-- Python `d[k] = v`: update in place if the key exists, else append. -/
def insert (l : PyDictOf κ α) (k : κ) (v : α) : PyDictOf κ α :=
  if l.any (fun p => decide (p.1 = k)) then
    l.map (fun p => if p.1 = k then (k, v) else p)
  else
    l ++ [(k, v)]

/-- Python `del d[k]`. -/
def erase (l : PyDictOf κ α) (k : κ) : PyDictOf κ α :=
  l.filter (fun p => decide (p.1 ≠ k))

end PyDictOf

/-- A Python `dict[str, Any]` as it appears in annotations and points. -/
abbrev PyDict : Type := PyDictOf String PyVal

/-- Python `{**base, **extra}`-style merge: each binding of `extra` is assigned into
`base` in order (CPython semantics of splatting into a dict literal). -/
def pyMerge (base : PyDict) (extra : PyDict) : PyDict :=
  extra.foldl (fun acc p => acc.insert p.1 p.2) base

/-- State of `AnnotationManager` (annotation.py).  `annotations` is the
`domains` map (domain → image → list of annotation dicts),
`geographic_points` maps keys to point dicts.  `writes` records, oldest
first, every full document passed to `yaml.dump` by `save`: the pair of the
`geographic_points` and `domains` mappings dumped. -/
structure AnnotationManager where
  annotations : PyDictOf String (PyDictOf String (List PyDict))
  geographic_points : PyDictOf String PyDict
  writes : List ((PyDictOf String PyDict) × (PyDictOf String (PyDictOf String (List PyDict))))
  deriving Repr

namespace AnnotationManager

/-- Python `save`: dump the entire current document to the YAML file. -/
def save (m : AnnotationManager) : AnnotationManager :=
  { m with writes := m.writes ++ [(m.geographic_points, m.annotations)] }

/-- Python `add_geographic_point` (latitude/longitude values abstracted as `PyVal`). -/
def add_geographic_point (m : AnnotationManager) (key : String) (name : String)
    (lat lon : PyVal) : AnnotationManager :=
  save { m with
    geographic_points := m.geographic_points.insert key
      [("name", PyVal.str name), ("latitude", lat), ("longitude", lon)] }

/-- Python `update_geographic_point`. -/
def update_geographic_point (m : AnnotationManager) (key : String) (name : String)
    (lat lon : PyVal) : AnnotationManager :=
  if (m.geographic_points.get key).isSome then
    save { m with
      geographic_points := m.geographic_points.insert key
        [("name", PyVal.str name), ("latitude", lat), ("longitude", lon)] }
  else m

/-- Python `remove_geographic_point`. -/
def remove_geographic_point (m : AnnotationManager) (key : String) : AnnotationManager :=
  if (m.geographic_points.get key).isSome then
    save { m with geographic_points := m.geographic_points.erase key }
  else m

/-- Python `get_annotations`: `self.annotations.get(domain, {}).get(image, [])`. -/
def get_annotations (m : AnnotationManager) (domain image : String) : List PyDict :=
  (((m.annotations.get domain).getD []).get image).getD []

/-- Python `set_annotations`. -/
def set_annotations (m : AnnotationManager) (domain image : String)
    (annotations : List PyDict) : AnnotationManager :=
  let base := if (m.annotations.get domain).isSome then m.annotations
              else m.annotations.insert domain []
  let inner := (base.get domain).getD []
  save { m with annotations := base.insert domain (inner.insert image annotations) }

/-- Python `add_annotation`. -/
def add_annotation (m : AnnotationManager) (domain image : String)
    ( annotation : PyDict) : AnnotationManager :=
  set_annotations m domain image (get_annotations m domain image ++ [ annotation])

/-- Python `remove_annotation` (index is a Python `int`, possibly negative). -/
def remove_annotation (m : AnnotationManager) (domain image : String)
    (index : Int) : AnnotationManager :=
  let annotations := get_annotations m domain image
  if 0 ≤ index ∧ index < annotations.length then
    set_annotations m domain image (annotations.eraseIdx index.toNat)
  else m

/-- Python `update_annotation`. -/
def update_annotation (m : AnnotationManager) (domain image : String)
    (index : Int) ( annotation : PyDict) : AnnotationManager :=
  let annotations := get_annotations m domain image
  if 0 ≤ index ∧ index < annotations.length then
    set_annotations m domain image (annotations.set index.toNat annotation)
  else m

/-- Python `get_all_annotations`: flatten the store, prefixing each annotation dict
with the `domain`/`image`/`index` metadata keys (which `**ann` may override). -/
def get_all_annotations (m : AnnotationManager) : List PyDict :=
  m.annotations.flatMap (fun dp =>
    dp.2.flatMap (fun ip =>
      ip.2.mapIdx (fun idx ann =>
        pyMerge [("domain", PyVal.str dp.1), ("image", PyVal.str ip.1),
                 ("index", PyVal.int idx)] ann)))

end AnnotationManager

/-! ## wrf_client.py -/

/-- Python `CodeConfig`. -/
structure CodeConfig where
  name : String
  code : String
  deriving DecidableEq, Repr

/-- Python `ForecastScheduleConfig`. -/
structure ForecastScheduleConfig where
  name : String
  hours : List Int
  deriving DecidableEq, Repr

/-- Python `LayerConfig` (`variable` is a Lean keyword, hence `variable_`). -/
structure LayerConfig where
  domain : String
  variable_ : String
  forecast_schedule : String
  maptype : String
  deriving DecidableEq, Repr

/-- Python `WrfConfig` (the memoisation fields `_domains` … are omitted: they are
rebuilt deterministically from the lists and are not otherwise observable). -/
structure WrfConfig where
  domain_codes : List CodeConfig
  maptype_codes : List CodeConfig
  variable_codes : List CodeConfig
  forecast_schedules : List ForecastScheduleConfig
  layers : List LayerConfig
  deriving Repr

namespace WrfConfig

/-- Python `{conf.name: conf.code for conf in l}`: successive dict assignments. -/
def codeTable (l : List CodeConfig) : PyDictOf String String :=
  l.foldl (fun m conf => m.insert conf.name conf.code) []

/-- Python `{conf.name: conf.hours for conf in l}`. -/
def scheduleTable (l : List ForecastScheduleConfig) : PyDictOf String (List Int) :=
  l.foldl (fun m conf => m.insert conf.name conf.hours) []

/-- Python `base_url`. -/
def base_url : String := "https://a.atmos.washington.edu/wrfrt/data/timeindep"

/-- Python `get_domain_code`: `ValueError` is modelled as `Except.error`. -/
def get_domain_code (cfg : WrfConfig) (domain_name : String) : Except String String :=
  match (codeTable cfg.domain_codes).get domain_name with
  | some code => .ok code
  | none => .error (domain_name ++ " was not found")

/-- Python `get_maptype_code`. -/
def get_maptype_code (cfg : WrfConfig) (maptype_name : String) : Except String String :=
  match (codeTable cfg.maptype_codes).get maptype_name with
  | some code => .ok code
  | none => .error (maptype_name ++ " was not found")

/-- Python `get_variable_code`. -/
def get_variable_code (cfg : WrfConfig) (variable_name : String) : Except String String :=
  match (codeTable cfg.variable_codes).get variable_name with
  | some code => .ok code
  | none => .error (variable_name ++ " was not found")

/-- Python `get_forecast_hours`. -/
def get_forecast_hours (cfg : WrfConfig) (schedule_name : String) :
    Except String (List Int) :=
  match (scheduleTable cfg.forecast_schedules).get schedule_name with
  | some hours => .ok hours
  | none => .error (schedule_name ++ " was not found")

/-- Little-endian decimal digits, with explicit fuel so that the definition
is structurally recursive (and hence computes by `rfl`).  The fuel used by
`natDecAux` always suffices, see `natDecAux_eq`. -/
def natDecAuxF : Nat → Nat → List Char
  | 0, _ => []
  | fuel + 1, n =>
    if n < 10 then [Nat.digitChar n]
    else Nat.digitChar (n % 10) :: natDecAuxF fuel (n / 10)

/-- Little-endian decimal digits of a natural number (least significant
first); the rendering underlying Python's `%d`. -/
def natDecAux (n : Nat) : List Char := natDecAuxF (n + 1) n

/-- Decimal rendering of a natural number, e.g. `natDec 42 = "42"`. -/
def natDec (n : Nat) : String :=
  (natDecAux n).reverse.asString

/-- Python `f"{h:02d}"`: decimal rendering padded with a leading zero to a
minimum width of two characters (the sign counts towards the width). -/
def pad2 (h : Int) : String :=
  if h < 0 then "-" ++ natDec h.natAbs
  else if h < 10 then "0" ++ natDec h.toNat
  else natDec h.toNat

/-- Python `build_url`; the `maptype` parameter defaults to `None` (`none`). -/
def build_url (cfg : WrfConfig) (domain variable_ : String) (hour : Int)
    (maptype : Option String := none) : Except String String := do
  let domain_code ← cfg.get_domain_code domain
  let maptype_code ← match maptype with
    | some m => cfg.get_maptype_code m
    | none => pure ""
  let variable_code ← cfg.get_variable_code variable_
  pure (base_url ++ "/images_" ++ domain_code ++ "/" ++ maptype_code ++
    variable_code ++ "." ++ pad2 hour ++ ".0000.gif")

end WrfConfig

/-! File system and HTTP download (`WrfClient.download_layer`).  A path is its
list of components; the file system maps paths to the bytes stored there; the
HTTP client is an abstract total function `fetch : String → Body` (a
successful `GET`, the only case in which the pipeline proceeds: on an HTTP
error `raise_for_status` aborts, which the claims do not touch).  Each fetch
performed is logged together with the forecast hour whose loop iteration
issued it. -/

/-- Target path `output_path / layer.domain / layer.variable / "hour{h:02d}.gif"`. -/
def targetPath (output_path : List String) (layer : LayerConfig) (h : Int) :
    List String :=
  output_path ++ [layer.domain, layer.variable_, "hour" ++ WrfConfig.pad2 h ++ ".gif"]

/-- The loop body of `download_layer` over the resolved forecast hours:
skip the hour if the target file exists, otherwise resolve the URL, fetch it
and write the body at the target path.  Errors from `build_url` propagate
(the Python exception aborts the loop). -/
def downloadHours {Body : Type} (fetch : String → Body) (layer : LayerConfig)
    (wrf_config : WrfConfig) (output_path : List String) :
    List Int → PyDictOf (List String) Body → List (Int × String) →
    Except String (PyDictOf (List String) Body × List (Int × String))
  | [], fs, log => .ok (fs, log)
  | fx_hour :: rest, fs, log =>
    let gif_output_path := targetPath output_path layer fx_hour
    if (fs.get gif_output_path).isSome then
      downloadHours fetch layer wrf_config output_path rest fs log
    else
      match wrf_config.build_url layer.domain layer.variable_ fx_hour
          (some layer.maptype) with
      | .error e => .error e
      | .ok image_url =>
          downloadHours fetch layer wrf_config output_path rest
            (fs.insert gif_output_path (fetch image_url))
            (log ++ [(fx_hour, image_url)])

/-- Python `WrfClient.download_layer`. -/
def download_layer {Body : Type} (fetch : String → Body) (layer : LayerConfig)
    (wrf_config : WrfConfig) (output_path : List String)
    (fs : PyDictOf (List String) Body) :
    Except String (PyDictOf (List String) Body × List (Int × String)) :=
  match wrf_config.get_forecast_hours layer.forecast_schedule with
  | .error e => .error e
  | .ok hours => downloadHours fetch layer wrf_config output_path hours fs []

/-! ## Helper definitions used only by the proofs -/

/-- Numeric value of a decimal digit character. -/
def charVal (c : Char) : Nat := c.toNat - '0'.toNat

/-- Value of a little-endian list of decimal digit characters. -/
def parseLE : List Char → Nat
  | [] => 0
  | c :: t => charVal c + 10 * parseLE t

/-- Left inverse of `WrfConfig.pad2`, used to prove `pad2` injective. -/
def unpad2 (s : String) : Int :=
  if s.data.head? = some '-' then -((parseLE s.data.tail.reverse : Nat) : Int)
  else ((parseLE s.data.reverse : Nat) : Int)

/-- The canonical enumeration of annotation addresses of a store, in
insertion order of domains, then images within a domain, then position. -/
def flatTriples (m : AnnotationManager) : List (String × String × Nat) :=
  m.annotations.flatMap (fun dp =>
    dp.2.flatMap (fun ip =>
      (List.range ip.2.length).map (fun i => (dp.1, ip.1, i))))

/-- Total number of annotations stored across all domains and images. -/
def totalAnnCount (m : AnnotationManager) : Nat :=
  (m.annotations.map (fun dp => (dp.2.map (fun ip => ip.2.length)).sum)).sum

/-! Concrete fixtures for witnesses and counterexamples. -/

/-- A small configuration: one domain, one maptype, one variable. -/
def cfgSmall : WrfConfig :=
  { domain_codes := [⟨"d1", "D"⟩]
    maptype_codes := [⟨"m1", "M"⟩]
    variable_codes := [⟨"v1", "V"⟩]
    forecast_schedules := [⟨"s1", [0, 12]⟩]
    layers := [⟨"d1", "v1", "s1", "m1"⟩] }

/-- Like `cfgSmall` but with a maptype named `""` whose code is `""`. -/
def cfgEmptyMaptype : WrfConfig :=
  { cfgSmall with maptype_codes := [⟨"m1", "M"⟩, ⟨"", ""⟩] }

/-- A configuration with duplicate names in every lookup table. -/
def cfgDup : WrfConfig :=
  { domain_codes := [⟨"d1", "OLD"⟩, ⟨"d1", "D2"⟩]
    maptype_codes := [⟨"m1", "MOLD"⟩, ⟨"m1", "M2"⟩]
    variable_codes := [⟨"v1", "VOLD"⟩, ⟨"v1", "V2"⟩]
    forecast_schedules := [⟨"s1", [0]⟩, ⟨"s1", [3, 6]⟩]
    layers := [] }

/-- The layer of `cfgSmall`. -/
def layerSmall : LayerConfig := ⟨"d1", "v1", "s1", "m1"⟩

/-- The empty annotation store with an empty write log. -/
def mEmpty : AnnotationManager := ⟨[], [], []⟩

/-- A store holding one point and one annotation. -/
def mOne : AnnotationManager :=
  { annotations := [("d", [("img", [[("pixel_x", PyVal.int 4)]])])]
    geographic_points := [("p1", [("name", PyVal.str "Here")])]
    writes := [] }

/-- A store whose single annotation dict itself has an `"index"` key. -/
def mIndexKey : AnnotationManager :=
  { annotations := [("d", [("img", [[("index", PyVal.int 1)]])])]
    geographic_points := []
    writes := [] }

/-! ## Lemmas about the Python dict model -/

namespace PyDictOf

variable {κ α : Type} [DecidableEq κ]

theorem get_nil (k : κ) : get ([] : PyDictOf κ α) k = none := rfl

theorem get_cons (p : κ × α) (t : PyDictOf κ α) (k : κ) :
    get (p :: t) k = if p.1 = k then some p.2 else get t k := by
  by_cases hp : p.1 = k
  · rw [if_pos hp]
    unfold get
    rw [List.find?_cons_of_pos _ (by simpa using hp)]
    rfl
  · rw [if_neg hp]
    unfold get
    rw [List.find?_cons_of_neg _ (by simpa using hp)]

theorem get_map_replace (t : PyDictOf κ α) (k k' : κ) (v : α) (h : k' ≠ k) :
    get (t.map (fun p => if p.1 = k then (k, v) else p)) k' = get t k' := by
  induction t with
  | nil => rfl
  | cons p t ih =>
    by_cases hp : p.1 = k
    · rw [List.map_cons, if_pos hp, get_cons, get_cons, if_neg (fun hh => h hh.symm),
        if_neg (by rw [hp]; exact fun hh => h hh.symm)]
      exact ih
    · rw [List.map_cons, if_neg hp, get_cons, get_cons]
      by_cases hp' : p.1 = k'
      · rw [if_pos hp', if_pos hp']
      · rw [if_neg hp', if_neg hp']
        exact ih

theorem get_map_replace_self (t : PyDictOf κ α) (k : κ) (v : α)
    (h : t.any (fun p => decide (p.1 = k)) = true) :
    get (t.map (fun p => if p.1 = k then (k, v) else p)) k = some v := by
  induction t with
  | nil => simp at h
  | cons p t ih =>
    by_cases hp : p.1 = k
    · rw [List.map_cons, if_pos hp, get_cons, if_pos rfl]
    · rw [List.map_cons, if_neg hp, get_cons, if_neg hp]
      refine ih ?_
      simp only [List.any_cons, Bool.or_eq_true, decide_eq_true_eq] at h
      rcases h with h | h
      · exact absurd h hp
      · simpa using h

theorem get_append_of_none (l₁ l₂ : PyDictOf κ α) (k : κ) (h : get l₁ k = none) :
    get (l₁ ++ l₂) k = get l₂ k := by
  induction l₁ with
  | nil => rfl
  | cons p t ih =>
    rw [get_cons] at h
    by_cases hp : p.1 = k
    · rw [if_pos hp] at h; exact absurd h (by simp)
    · rw [if_neg hp] at h
      rw [List.cons_append, get_cons, if_neg hp]
      exact ih h

theorem get_append_of_some (l₁ l₂ : PyDictOf κ α) (k : κ) (w : α)
    (h : get l₁ k = some w) : get (l₁ ++ l₂) k = some w := by
  induction l₁ with
  | nil => simp [get_nil] at h
  | cons p t ih =>
    rw [get_cons] at h
    rw [List.cons_append, get_cons]
    by_cases hp : p.1 = k
    · rw [if_pos hp] at h; rw [if_pos hp]; exact h
    · rw [if_neg hp] at h; rw [if_neg hp]; exact ih h

theorem any_eq_false_get (l : PyDictOf κ α) (k : κ)
    (h : l.any (fun p => decide (p.1 = k)) = false) : get l k = none := by
  induction l with
  | nil => rfl
  | cons p t ih =>
    simp only [List.any_cons, Bool.or_eq_false_iff, decide_eq_false_iff_not] at h
    rw [get_cons, if_neg h.1]
    exact ih (by simpa using h.2)

/-- Pointwise behaviour of Python dict assignment. -/
theorem get_insert (l : PyDictOf κ α) (k k' : κ) (v : α) :
    (l.insert k v).get k' = if k' = k then some v else l.get k' := by
  unfold insert
  by_cases h : l.any (fun p => decide (p.1 = k))
  · rw [if_pos h]
    by_cases hk : k' = k
    · subst hk; rw [if_pos rfl]; exact get_map_replace_self l k' v h
    · rw [if_neg hk]; exact get_map_replace l k k' v hk
  · rw [if_neg h]
    have hnone : get l k = none :=
      any_eq_false_get l k (by rwa [Bool.not_eq_true] at h)
    by_cases hk : k' = k
    · subst hk
      rw [if_pos rfl, get_append_of_none _ _ _ hnone, get_cons, if_pos rfl]
    · rw [if_neg hk]
      cases hget : get l k' with
      | none =>
        rw [get_append_of_none _ _ _ hget, get_cons, if_neg (fun hh => hk hh.symm)]
        rfl
      | some w => exact get_append_of_some _ _ _ _ hget

theorem get_insert_self (l : PyDictOf κ α) (k : κ) (v : α) :
    (l.insert k v).get k = some v := by
  rw [get_insert, if_pos rfl]

theorem get_insert_ne (l : PyDictOf κ α) (k k' : κ) (v : α) (hne : k' ≠ k) :
    (l.insert k v).get k' = l.get k' := by
  rw [get_insert, if_neg hne]

theorem get_eq_none_iff (l : PyDictOf κ α) (k : κ) :
    l.get k = none ↔ ∀ p ∈ l, p.1 ≠ k := by
  induction l with
  | nil => simp [get_nil]
  | cons p t ih =>
    rw [get_cons]
    by_cases hp : p.1 = k
    · rw [if_pos hp]
      simp [hp]
    · rw [if_neg hp]
      simp only [List.mem_cons, forall_eq_or_imp]
      rw [ih]
      simp [hp]


end PyDictOf

/-! ## Decimal rendering: round trip and injectivity -/

theorem natDecAuxF_congr : ∀ f1 f2 n : Nat, n < f1 → n < f2 →
    WrfConfig.natDecAuxF f1 n = WrfConfig.natDecAuxF f2 n := by
  intro f1
  induction f1 with
  | zero => intro f2 n h1 _; omega
  | succ f ih =>
    intro f2 n h1 h2
    cases f2 with
    | zero => omega
    | succ f2' =>
      simp only [WrfConfig.natDecAuxF]
      by_cases h10 : n < 10
      · rw [if_pos h10, if_pos h10]
      · rw [if_neg h10, if_neg h10]
        have hlt : n / 10 < n := Nat.div_lt_self (by omega) (by omega)
        rw [ih f2' (n / 10) (by omega) (by omega)]

theorem natDecAux_eq (n : Nat) : WrfConfig.natDecAux n =
    if n < 10 then [Nat.digitChar n]
    else Nat.digitChar (n % 10) :: WrfConfig.natDecAux (n / 10) := by
  have hstep : WrfConfig.natDecAux n =
      if n < 10 then [Nat.digitChar n]
      else Nat.digitChar (n % 10) :: WrfConfig.natDecAuxF n (n / 10) := rfl
  rw [hstep]
  by_cases h : n < 10
  · rw [if_pos h, if_pos h]
  · rw [if_neg h, if_neg h]
    have hlt : n / 10 < n := Nat.div_lt_self (by omega) (by omega)
    have hc := natDecAuxF_congr n (n / 10 + 1) (n / 10) (by omega) (by omega)
    rw [hc]
    rfl

theorem charVal_digitChar (k : Nat) (hk : k < 10) :
    charVal (Nat.digitChar k) = k := by
  interval_cases k <;> rfl

theorem digitChar_ne_dash (k : Nat) (hk : k < 10) : Nat.digitChar k ≠ '-' := by
  interval_cases k <;> decide

theorem parseLE_natDecAux (n : Nat) : parseLE (WrfConfig.natDecAux n) = n := by
  induction n using Nat.strong_induction_on with
  | _ n ih =>
    rw [natDecAux_eq]
    by_cases h : n < 10
    · rw [if_pos h]
      simp [parseLE, charVal_digitChar n h]
    · rw [if_neg h]
      have h10 : n % 10 < 10 := Nat.mod_lt _ (by omega)
      have hdiv : n / 10 < n := Nat.div_lt_self (by omega) (by omega)
      simp only [parseLE, charVal_digitChar _ h10, ih _ hdiv]
      omega

theorem natDecAux_ne_nil (n : Nat) : WrfConfig.natDecAux n ≠ [] := by
  rw [natDecAux_eq]
  by_cases h : n < 10
  · rw [if_pos h]; simp
  · rw [if_neg h]; simp

theorem mem_natDecAux_ne_dash (n : Nat) : ∀ c ∈ WrfConfig.natDecAux n, c ≠ '-' := by
  induction n using Nat.strong_induction_on with
  | _ n ih =>
    rw [natDecAux_eq]
    by_cases h : n < 10
    · rw [if_pos h]
      intro c hc
      simp only [List.mem_singleton] at hc
      subst hc
      exact digitChar_ne_dash n h
    · rw [if_neg h]
      intro c hc
      rcases List.mem_cons.mp hc with hc | hc
      · subst hc
        exact digitChar_ne_dash _ (Nat.mod_lt _ (by omega))
      · exact ih _ (Nat.div_lt_self (by omega) (by omega)) c hc

theorem parseLE_append_zero (l : List Char) : parseLE (l ++ ['0']) = parseLE l := by
  induction l with
  | nil => rfl
  | cons c t ih => simp [parseLE, ih]

theorem data_natDec (n : Nat) :
    (WrfConfig.natDec n).data = (WrfConfig.natDecAux n).reverse := rfl

theorem unpad2_pad2 (h : Int) : unpad2 (WrfConfig.pad2 h) = h := by
  unfold WrfConfig.pad2
  by_cases hneg : h < 0
  · rw [if_pos hneg]
    have hd : ("-" ++ WrfConfig.natDec h.natAbs).data =
        '-' :: (WrfConfig.natDecAux h.natAbs).reverse := by
      rw [String.data_append, data_natDec]; rfl
    unfold unpad2
    rw [hd, if_pos (by simp)]
    simp only [List.tail_cons, List.reverse_reverse, parseLE_natDecAux]
    omega
  · by_cases hlt : h < 10
    · rw [if_neg hneg, if_pos hlt]
      have hd : ("0" ++ WrfConfig.natDec h.toNat).data =
          '0' :: (WrfConfig.natDecAux h.toNat).reverse := by
        rw [String.data_append, data_natDec]; rfl
      unfold unpad2
      rw [hd, if_neg (by simp)]
      simp only [List.reverse_cons, List.reverse_reverse, parseLE_append_zero,
        parseLE_natDecAux]
      omega
    · rw [if_neg hneg, if_neg hlt]
      unfold unpad2
      rw [data_natDec]
      cases hrev : (WrfConfig.natDecAux h.toNat).reverse with
      | nil =>
        exact absurd (by simpa using congrArg List.reverse hrev)
          (natDecAux_ne_nil h.toNat)
      | cons c t =>
        have hcmem : c ∈ WrfConfig.natDecAux h.toNat := by
          have : c ∈ (WrfConfig.natDecAux h.toNat).reverse := by rw [hrev]; simp
          simpa using this
        have hcd : c ≠ '-' := mem_natDecAux_ne_dash _ c hcmem
        rw [if_neg (by simp only [List.head?_cons, Option.some.injEq]; exact hcd),
          ← hrev]
        simp only [List.reverse_reverse, parseLE_natDecAux]
        omega

theorem pad2_injective (a b : Int) (h : WrfConfig.pad2 a = WrfConfig.pad2 b) :
    a = b := by
  have := congrArg unpad2 h
  rwa [unpad2_pad2, unpad2_pad2] at this

theorem pad2_examples :
    WrfConfig.pad2 0 = "00" ∧ WrfConfig.pad2 3 = "03" ∧
    WrfConfig.pad2 12 = "12" ∧ WrfConfig.pad2 (-5) = "-5" ∧
    WrfConfig.pad2 100 = "100" := by
  refine ⟨?_, ?_, ?_, ?_, ?_⟩ <;> rfl

theorem length_natDec (n : Nat) :
    (WrfConfig.natDec n).length = (WrfConfig.natDecAux n).length := by
  show (WrfConfig.natDecAux n).reverse.asString.length = _
  rw [show ((WrfConfig.natDecAux n).reverse.asString).length =
      (WrfConfig.natDecAux n).reverse.length from rfl, List.length_reverse]

theorem pad2_length_two (h : Int) (h0 : 0 ≤ h) (h100 : h < 100) :
    (WrfConfig.pad2 h).length = 2 := by
  unfold WrfConfig.pad2
  by_cases hlt : h < 10
  · rw [if_neg (by omega), if_pos hlt, String.length_append, length_natDec,
      natDecAux_eq, if_pos (by omega)]
    rfl
  · rw [if_neg (by omega), if_neg hlt, length_natDec, natDecAux_eq,
      if_neg (by omega), List.length_cons, natDecAux_eq, if_pos (by omega)]
    rfl

/-! ## Lookup tables built by dict comprehensions -/

theorem foldl_insert_get {α β : Type} (key : β → String) (val : β → α)
    (l : List β) (init : PyDictOf String α) (n : String) :
    (l.foldl (fun m b => m.insert (key b) (val b)) init).get n =
      match l.reverse.find? (fun b => decide (key b = n)) with
      | some b => some (val b)
      | none => init.get n := by
  induction l generalizing init with
  | nil => rfl
  | cons c t ih =>
    rw [List.foldl_cons, ih, List.reverse_cons, List.find?_append]
    cases hf : t.reverse.find? (fun b => decide (key b = n)) with
    | some b => rfl
    | none =>
      by_cases hc : key c = n
      · have h1 : [c].find? (fun b => decide (key b = n)) = some c := by
          simp [List.find?, hc]
        rw [h1]
        show (init.insert (key c) (val c)).get n = some (val c)
        rw [PyDictOf.get_insert, if_pos hc.symm]
      · have h1 : [c].find? (fun b => decide (key b = n)) = none := by
          simp [List.find?, hc]
        rw [h1]
        show (init.insert (key c) (val c)).get n = init.get n
        exact PyDictOf.get_insert_ne init (key c) n (val c) (fun hh => hc hh.symm)

theorem codeTable_get_none (l : List CodeConfig) (n : String)
    (h : ∀ c ∈ l, c.name ≠ n) : (WrfConfig.codeTable l).get n = none := by
  rw [WrfConfig.codeTable, foldl_insert_get CodeConfig.name CodeConfig.code]
  have : l.reverse.find? (fun b => decide (b.name = n)) = none := by
    rw [List.find?_eq_none]
    intro x hx
    simpa using h x (List.mem_reverse.mp hx)
  rw [this]
  rfl

theorem scheduleTable_get_none (l : List ForecastScheduleConfig) (n : String)
    (h : ∀ c ∈ l, c.name ≠ n) : (WrfConfig.scheduleTable l).get n = none := by
  rw [WrfConfig.scheduleTable,
    foldl_insert_get ForecastScheduleConfig.name ForecastScheduleConfig.hours]
  have : l.reverse.find? (fun b => decide (b.name = n)) = none := by
    rw [List.find?_eq_none]
    intro x hx
    simpa using h x (List.mem_reverse.mp hx)
  rw [this]
  rfl

theorem codeTable_get_last (l₁ l₂ : List CodeConfig) (c : CodeConfig) (n : String)
    (hc : c.name = n) (h2 : ∀ c' ∈ l₂, c'.name ≠ n) :
    (WrfConfig.codeTable (l₁ ++ c :: l₂)).get n = some c.code := by
  rw [WrfConfig.codeTable, foldl_insert_get CodeConfig.name CodeConfig.code]
  have hnone : l₂.reverse.find? (fun b => decide (b.name = n)) = none := by
    rw [List.find?_eq_none]
    intro x hx
    simpa using h2 x (List.mem_reverse.mp hx)
  have hone : [c].find? (fun b => decide (b.name = n)) = some c := by
    simp [List.find?, hc]
  rw [List.reverse_append, List.reverse_cons, List.append_assoc,
    List.find?_append, List.find?_append, hnone, hone]
  rfl

theorem scheduleTable_get_last (l₁ l₂ : List ForecastScheduleConfig)
    (c : ForecastScheduleConfig) (n : String)
    (hc : c.name = n) (h2 : ∀ c' ∈ l₂, c'.name ≠ n) :
    (WrfConfig.scheduleTable (l₁ ++ c :: l₂)).get n = some c.hours := by
  rw [WrfConfig.scheduleTable,
    foldl_insert_get ForecastScheduleConfig.name ForecastScheduleConfig.hours]
  have hnone : l₂.reverse.find? (fun b => decide (b.name = n)) = none := by
    rw [List.find?_eq_none]
    intro x hx
    simpa using h2 x (List.mem_reverse.mp hx)
  have hone : [c].find? (fun b => decide (b.name = n)) = some c := by
    simp [List.find?, hc]
  rw [List.reverse_append, List.reverse_cons, List.append_assoc,
    List.find?_append, List.find?_append, hnone, hone]
  rfl

/-! ## Claims C5, C6, C10, C1: URL building and lookups -/

/-- C5: for every resolvable domain, variable, hour and maptype, the built
address is exactly
`<base_url>/images_<domainCode>/<maptypeCode><variableCode>.<hour:02d>.0000.gif`,
with the maptype code directly before the variable code with no separator and
the hour rendered by `%02d` (zero-padded to two digits; `pad2` is that
rendering, and for `0 ≤ hour < 100` it has exactly two characters). -/
theorem build_url_format (cfg : WrfConfig) (d v : String) (hour : Int)
    (mt : Option String) (dc mc vc : String)
    (hd : cfg.get_domain_code d = .ok dc)
    (hm : match mt with
      | none => mc = ""
      | some m => cfg.get_maptype_code m = .ok mc)
    (hv : cfg.get_variable_code v = .ok vc) :
    cfg.build_url d v hour mt =
      .ok (WrfConfig.base_url ++ "/images_" ++ dc ++ "/" ++ mc ++ vc ++ "." ++
        WrfConfig.pad2 hour ++ ".0000.gif") ∧
    (0 ≤ hour → hour < 100 → (WrfConfig.pad2 hour).length = 2) := by
  constructor
  · cases mt with
    | none =>
      subst hm
      simp only [WrfConfig.build_url, hd, hv]
      rfl
    | some m =>
      simp only at hm
      simp only [WrfConfig.build_url, hd, hm, hv]
      rfl
  · intro h0 h100
    exact pad2_length_two hour h0 h100

/-- Witness for C5 at a concrete configuration. -/
theorem build_url_format_witness :
    cfgSmall.build_url "d1" "v1" 3 (some "m1") =
      .ok (WrfConfig.base_url ++ "/images_" ++ "D" ++ "/" ++ "M" ++ "V" ++ "." ++
        WrfConfig.pad2 3 ++ ".0000.gif") ∧
    (WrfConfig.pad2 3).length = 2 := by
  have h := build_url_format cfgSmall "d1" "v1" 3 (some "m1") "D" "M" "V"
    rfl rfl rfl
  exact ⟨h.1, h.2 (by decide) (by decide)⟩

/-- C6: resolving a name absent from its table yields the
`"<name> was not found"` error (no default), for each of the four lookups. -/
theorem lookup_not_found (cfg : WrfConfig) (n : String) :
    ((∀ c ∈ cfg.domain_codes, c.name ≠ n) →
      cfg.get_domain_code n = .error (n ++ " was not found")) ∧
    ((∀ c ∈ cfg.maptype_codes, c.name ≠ n) →
      cfg.get_maptype_code n = .error (n ++ " was not found")) ∧
    ((∀ c ∈ cfg.variable_codes, c.name ≠ n) →
      cfg.get_variable_code n = .error (n ++ " was not found")) ∧
    ((∀ c ∈ cfg.forecast_schedules, c.name ≠ n) →
      cfg.get_forecast_hours n = .error (n ++ " was not found")) := by
  refine ⟨fun h => ?_, fun h => ?_, fun h => ?_, fun h => ?_⟩
  · rw [WrfConfig.get_domain_code, codeTable_get_none _ _ h]
  · rw [WrfConfig.get_maptype_code, codeTable_get_none _ _ h]
  · rw [WrfConfig.get_variable_code, codeTable_get_none _ _ h]
  · rw [WrfConfig.get_forecast_hours, scheduleTable_get_none _ _ h]

/-- Witness for C6 at a concrete configuration and absent name. -/
theorem lookup_not_found_witness :
    cfgSmall.get_domain_code "zz" = .error ("zz" ++ " was not found") ∧
    cfgSmall.get_maptype_code "zz" = .error ("zz" ++ " was not found") ∧
    cfgSmall.get_variable_code "zz" = .error ("zz" ++ " was not found") ∧
    cfgSmall.get_forecast_hours "zz" = .error ("zz" ++ " was not found") := by
  have h := lookup_not_found cfgSmall "zz"
  exact ⟨h.1 (by decide), h.2.1 (by decide), h.2.2.1 (by decide),
    h.2.2.2 (by decide)⟩

/-- C10: when a lookup list contains duplicate names, resolution does not
fail and returns the code (or hour list) of the last entry with that name;
entries before it are unreachable through the comprehension-built table. -/
theorem duplicate_names_last_wins (cfg : WrfConfig) (n : String) :
    (∀ l₁ l₂ c, cfg.domain_codes = l₁ ++ c :: l₂ → c.name = n →
      (∃ c' ∈ l₁, c'.name = n) → (∀ c' ∈ l₂, c'.name ≠ n) →
      cfg.get_domain_code n = .ok c.code) ∧
    (∀ l₁ l₂ c, cfg.maptype_codes = l₁ ++ c :: l₂ → c.name = n →
      (∃ c' ∈ l₁, c'.name = n) → (∀ c' ∈ l₂, c'.name ≠ n) →
      cfg.get_maptype_code n = .ok c.code) ∧
    (∀ l₁ l₂ c, cfg.variable_codes = l₁ ++ c :: l₂ → c.name = n →
      (∃ c' ∈ l₁, c'.name = n) → (∀ c' ∈ l₂, c'.name ≠ n) →
      cfg.get_variable_code n = .ok c.code) ∧
    (∀ l₁ l₂ s, cfg.forecast_schedules = l₁ ++ s :: l₂ → s.name = n →
      (∃ s' ∈ l₁, s'.name = n) → (∀ s' ∈ l₂, s'.name ≠ n) →
      cfg.get_forecast_hours n = .ok s.hours) := by
  refine ⟨fun l₁ l₂ c hsplit hc _ h2 => ?_, fun l₁ l₂ c hsplit hc _ h2 => ?_,
    fun l₁ l₂ c hsplit hc _ h2 => ?_, fun l₁ l₂ s hsplit hc _ h2 => ?_⟩
  · rw [WrfConfig.get_domain_code, hsplit, codeTable_get_last _ _ _ _ hc h2]
  · rw [WrfConfig.get_maptype_code, hsplit, codeTable_get_last _ _ _ _ hc h2]
  · rw [WrfConfig.get_variable_code, hsplit, codeTable_get_last _ _ _ _ hc h2]
  · rw [WrfConfig.get_forecast_hours, hsplit, scheduleTable_get_last _ _ _ _ hc h2]

/-- Witness for C10 at a configuration whose tables all contain duplicates. -/
theorem duplicate_names_last_wins_witness :
    cfgDup.get_domain_code "d1" = .ok "D2" ∧
    cfgDup.get_maptype_code "m1" = .ok "M2" ∧
    cfgDup.get_variable_code "v1" = .ok "V2" ∧
    cfgDup.get_forecast_hours "s1" = .ok [3, 6] := by
  have h := duplicate_names_last_wins cfgDup "s1"
  have h1 := duplicate_names_last_wins cfgDup "d1"
  have h2 := duplicate_names_last_wins cfgDup "m1"
  have h3 := duplicate_names_last_wins cfgDup "v1"
  refine ⟨h1.1 [⟨"d1", "OLD"⟩] [] ⟨"d1", "D2"⟩ rfl rfl ?_ (by simp), ?_, ?_, ?_⟩
  · exact ⟨⟨"d1", "OLD"⟩, by simp⟩
  · exact h2.2.1 [⟨"m1", "MOLD"⟩] [] ⟨"m1", "M2"⟩ rfl rfl
      ⟨⟨"m1", "MOLD"⟩, by simp⟩ (by simp)
  · exact h3.2.2.1 [⟨"v1", "VOLD"⟩] [] ⟨"v1", "V2"⟩ rfl rfl
      ⟨⟨"v1", "VOLD"⟩, by simp⟩ (by simp)
  · exact h.2.2.2 [⟨"s1", [0]⟩] [] ⟨"s1", [3, 6]⟩ rfl rfl
      ⟨⟨"s1", [0]⟩, by simp⟩ (by simp)

/-- Counterexample to C1: at `cfgSmall` (which has no maptype named `""`),
building with the maptype omitted succeeds, while building with an
empty-string maptype raises the not-found error, so the two addresses are
not the same. -/
theorem build_url_empty_maptype_cex :
    cfgSmall.build_url "d1" "v1" 3 (some "") = .error ("" ++ " was not found") ∧
    cfgSmall.build_url "d1" "v1" 3 none =
      .ok (WrfConfig.base_url ++ "/images_D/V." ++ WrfConfig.pad2 3 ++ ".0000.gif") ∧
    cfgSmall.build_url "d1" "v1" 3 (some "") ≠ cfgSmall.build_url "d1" "v1" 3 none := by
  have h1 : cfgSmall.build_url "d1" "v1" 3 (some "") =
      .error ("" ++ " was not found") := rfl
  have h2 : cfgSmall.build_url "d1" "v1" 3 none =
      .ok (WrfConfig.base_url ++ "/images_D/V." ++ WrfConfig.pad2 3 ++ ".0000.gif") := rfl
  refine ⟨h1, h2, ?_⟩
  intro hcontra
  rw [h1, h2] at hcontra
  exact Except.noConfusion hcontra

/-- C1 amended: with the maptype argument omitted the maptype code is the
empty string, whereas an empty-string maptype argument is looked up as the
name `""`: the two calls build the same address when the configuration maps
the maptype name `""` to the code `""`, and when `""` is not a configured
maptype name (and the domain resolves) the empty-string call fails with the
not-found error instead. -/
theorem build_url_empty_maptype_amended (cfg : WrfConfig) (d v : String)
    (hour : Int) :
    (cfg.get_maptype_code "" = .ok "" →
      cfg.build_url d v hour (some "") = cfg.build_url d v hour none) ∧
    (∀ e, cfg.get_maptype_code "" = .error e →
      ∀ dc, cfg.get_domain_code d = .ok dc →
      cfg.build_url d v hour (some "") = .error e) := by
  constructor
  · intro hm
    simp only [WrfConfig.build_url, hm]
    rfl
  · intro e hm dc hd
    simp only [WrfConfig.build_url, hm, hd]
    rfl

/-- Witness for the amended C1: agreement when `""` is configured with code
`""`, failure when it is not. -/
theorem build_url_empty_maptype_amended_witness :
    cfgEmptyMaptype.build_url "d1" "v1" 3 (some "") =
      cfgEmptyMaptype.build_url "d1" "v1" 3 none ∧
    cfgSmall.build_url "d1" "v1" 3 (some "") = .error ("" ++ " was not found") := by
  have ha := build_url_empty_maptype_amended cfgEmptyMaptype "d1" "v1" 3
  have hb := build_url_empty_maptype_amended cfgSmall "d1" "v1" 3
  exact ⟨ha.1 rfl, hb.2 ("" ++ " was not found") rfl "D" rfl⟩

/-! ## Annotation store lemmas -/

namespace AnnotationManager

theorem get_annotations_set (m : AnnotationManager) (d img : String)
    (l : List PyDict) :
    get_annotations (set_annotations m d img l) d img = l := by
  unfold set_annotations get_annotations save
  simp only [PyDictOf.get_insert_self, Option.getD_some]

theorem annotations_set_writes (m : AnnotationManager) (d img : String)
    (l : List PyDict) :
    (set_annotations m d img l).writes = m.writes ++
      [((set_annotations m d img l).geographic_points,
        (set_annotations m d img l).annotations)] := rfl

end AnnotationManager

/-! ## Claims C4, C8, C9, C3: annotation store behaviour -/

/-- C4: for out-of-range indices (negative or at least the list length) both
index-based annotation operations leave the whole store unchanged (silent
no-op, no error), and for in-range indices they remove or replace exactly
the element at that position. -/
theorem annotation_index_contract (m : AnnotationManager) (d img : String)
    (i : Int) (a : PyDict) :
    ((i < 0 ∨ ((AnnotationManager.get_annotations m d img).length : Int) ≤ i) →
      AnnotationManager.remove_annotation m d img i = m ∧
      AnnotationManager.update_annotation m d img i a = m) ∧
    (0 ≤ i → i < (AnnotationManager.get_annotations m d img).length →
      AnnotationManager.get_annotations
          ( AnnotationManager.remove_annotation m d img i) d img =
        (AnnotationManager.get_annotations m d img).eraseIdx i.toNat ∧
      AnnotationManager.get_annotations
          ( AnnotationManager.update_annotation m d img i a) d img =
        (AnnotationManager.get_annotations m d img).set i.toNat a) := by
  constructor
  · intro hout
    constructor
    · simp only [AnnotationManager.remove_annotation]
      rw [if_neg (by omega)]
    · simp only [AnnotationManager.update_annotation]
      rw [if_neg (by omega)]
  · intro h0 hlen
    constructor
    · simp only [AnnotationManager.remove_annotation]
      rw [if_pos ⟨h0, hlen⟩, AnnotationManager.get_annotations_set]
    · simp only [AnnotationManager.update_annotation]
      rw [if_pos ⟨h0, hlen⟩, AnnotationManager.get_annotations_set]

/-- Witness for C4 at a concrete store: index 5 and index -1 are silent
no-ops, index 0 removes/replaces the only element. -/
theorem annotation_index_contract_witness :
    AnnotationManager.remove_annotation mOne "d" "img" 5 = mOne ∧
    AnnotationManager.update_annotation mOne "d" "img" (-1) [] = mOne ∧
    AnnotationManager.get_annotations
        ( AnnotationManager.remove_annotation mOne "d" "img" 0) "d" "img" = [] ∧
    AnnotationManager.get_annotations
        ( AnnotationManager.update_annotation mOne "d" "img" 0
          [("pixel_x", PyVal.int 9)]) "d" "img" = [[("pixel_x", PyVal.int 9)]] := by
  have h5 := annotation_index_contract mOne "d" "img" 5 []
  have hm1 := annotation_index_contract mOne "d" "img" (-1) []
  have h0 := annotation_index_contract mOne "d" "img" 0 [("pixel_x", PyVal.int 9)]
  refine ⟨(h5.1 (by right; decide)).1, (hm1.1 (by left; decide)).2, ?_, ?_⟩
  · rw [(h0.2 (by decide) (by decide)).1]
    rfl
  · rw [(h0.2 (by decide) (by decide)).2]
    rfl

/-- C8: adding an annotation and then removing at the resulting last index
(the new length minus one, i.e. the prior length) restores the annotation
list for that domain and image. -/
theorem add_remove_annotation_roundtrip (m : AnnotationManager)
    (d img : String) (a : PyDict) :
    AnnotationManager.get_annotations
      ( AnnotationManager.remove_annotation
        ( AnnotationManager.add_annotation m d img a) d img
        ((AnnotationManager.get_annotations m d img).length : Int)) d img =
      AnnotationManager.get_annotations m d img := by
  have hadd : AnnotationManager.get_annotations
      ( AnnotationManager.add_annotation m d img a) d img =
      AnnotationManager.get_annotations m d img ++ [a] :=
    AnnotationManager.get_annotations_set m d img _
  simp only [AnnotationManager.remove_annotation, hadd]
  rw [if_pos ⟨by omega, by simp⟩, AnnotationManager.get_annotations_set,
    Int.toNat_natCast,
    List.eraseIdx_append_of_length_le (Nat.le_refl _)]
  simp

/-- C9: removing a geographic point never touches any annotation list, and
is a complete no-op (no state change, no write) when the key is absent. -/
theorem remove_point_frame (m : AnnotationManager) (k : String) :
    (AnnotationManager.remove_geographic_point m k).annotations =
      m.annotations ∧
    (m.geographic_points.get k = none →
      AnnotationManager.remove_geographic_point m k = m) := by
  constructor
  · cases hm : m.geographic_points.get k with
    | none => simp [AnnotationManager.remove_geographic_point, hm]
    | some v => simp [AnnotationManager.remove_geographic_point, hm,
        AnnotationManager.save]
  · intro hk
    simp [AnnotationManager.remove_geographic_point, hk]

/-- Witness for C9: a present key keeps annotations intact, an absent key
changes nothing at all. -/
theorem remove_point_frame_witness :
    (AnnotationManager.remove_geographic_point mOne "p1").annotations =
      mOne.annotations ∧
    AnnotationManager.remove_geographic_point mOne "zz" = mOne :=
  ⟨(remove_point_frame mOne "p1").1, (remove_point_frame mOne "zz").2 rfl⟩

/-- Counterexample to C3: on the empty store, `update_geographic_point` with
an absent key, `remove_geographic_point` with an absent key, and
`remove_annotation` with an out-of-range index all perform no write at all
(the write log stays empty), so not every mutating call rewrites the
document. -/
theorem mutating_calls_write_cex :
    (AnnotationManager.update_geographic_point mEmpty "k" "n"
      (PyVal.int 0) (PyVal.int 0)).writes = [] ∧
    (AnnotationManager.remove_geographic_point mEmpty "k").writes = [] ∧
    ( AnnotationManager.remove_annotation mEmpty "d" "img" 0).writes = [] ∧
    AnnotationManager.update_geographic_point mEmpty "k" "n"
      (PyVal.int 0) (PyVal.int 0) = mEmpty := by
  exact ⟨rfl, rfl, rfl, rfl⟩

/-- C3 amended: every mutating call that takes effect performs exactly one
write, and that write is the full current document (all points and all
annotations); `add_geographic_point`, `set_annotations` and `add_annotation`
always take effect, while `update_geographic_point` / `remove_geographic_point`
on an absent key and `remove_annotation` / `update_annotation` with an
out-of-range index take no effect and perform no write at all. -/
theorem mutating_calls_write_amended (m : AnnotationManager) (k n : String)
    (lat lon : PyVal) (d img : String) (anns : List PyDict) (a : PyDict)
    (i : Int) :
    ((AnnotationManager.add_geographic_point m k n lat lon).writes =
      m.writes ++
        [((AnnotationManager.add_geographic_point m k n lat lon).geographic_points,
          (AnnotationManager.add_geographic_point m k n lat lon).annotations)]) ∧
    ((m.geographic_points.get k).isSome = true →
      (AnnotationManager.update_geographic_point m k n lat lon).writes =
        m.writes ++
          [((AnnotationManager.update_geographic_point m k n lat lon).geographic_points,
            (AnnotationManager.update_geographic_point m k n lat lon).annotations)]) ∧
    ((m.geographic_points.get k).isSome = false →
      AnnotationManager.update_geographic_point m k n lat lon = m) ∧
    ((m.geographic_points.get k).isSome = true →
      (AnnotationManager.remove_geographic_point m k).writes =
        m.writes ++
          [((AnnotationManager.remove_geographic_point m k).geographic_points,
            (AnnotationManager.remove_geographic_point m k).annotations)]) ∧
    ((m.geographic_points.get k).isSome = false →
      AnnotationManager.remove_geographic_point m k = m) ∧
    ((AnnotationManager.set_annotations m d img anns).writes =
      m.writes ++
        [((AnnotationManager.set_annotations m d img anns).geographic_points,
          (AnnotationManager.set_annotations m d img anns).annotations)]) ∧
    (( AnnotationManager.add_annotation m d img a).writes =
      m.writes ++
        [(( AnnotationManager.add_annotation m d img a).geographic_points,
          ( AnnotationManager.add_annotation m d img a).annotations)]) ∧
    (0 ≤ i → i < (AnnotationManager.get_annotations m d img).length →
      (( AnnotationManager.remove_annotation m d img i).writes =
        m.writes ++
          [(( AnnotationManager.remove_annotation m d img i).geographic_points,
            ( AnnotationManager.remove_annotation m d img i).annotations)]) ∧
      (( AnnotationManager.update_annotation m d img i a).writes =
        m.writes ++
          [(( AnnotationManager.update_annotation m d img i a).geographic_points,
            ( AnnotationManager.update_annotation m d img i a).annotations)])) ∧
    ((i < 0 ∨ ((AnnotationManager.get_annotations m d img).length : Int) ≤ i) →
      AnnotationManager.remove_annotation m d img i = m ∧
      AnnotationManager.update_annotation m d img i a = m) := by
  refine ⟨rfl, ?_, ?_, ?_, ?_, rfl, rfl, ?_, ?_⟩
  · intro h
    simp only [AnnotationManager.update_geographic_point, h, if_true]
    rfl
  · intro h
    simp only [AnnotationManager.update_geographic_point, h]
    rfl
  · intro h
    simp only [AnnotationManager.remove_geographic_point, h, if_true]
    rfl
  · intro h
    simp only [AnnotationManager.remove_geographic_point, h]
    rfl
  · intro h0 hlen
    constructor
    · simp only [AnnotationManager.remove_annotation]
      rw [if_pos ⟨h0, hlen⟩]
      rfl
    · simp only [AnnotationManager.update_annotation]
      rw [if_pos ⟨h0, hlen⟩]
      rfl
  · intro hout
    constructor
    · simp only [AnnotationManager.remove_annotation]
      rw [if_neg (by omega)]
    · simp only [AnnotationManager.update_annotation]
      rw [if_neg (by omega)]

/-- Witness for the amended C3 at a concrete store with one point and one
annotation. -/
theorem mutating_calls_write_amended_witness :
    ((AnnotationManager.add_geographic_point mOne "p2" "There"
      (PyVal.int 1) (PyVal.int 2)).writes =
      mOne.writes ++
        [((AnnotationManager.add_geographic_point mOne "p2" "There"
            (PyVal.int 1) (PyVal.int 2)).geographic_points,
          (AnnotationManager.add_geographic_point mOne "p2" "There"
            (PyVal.int 1) (PyVal.int 2)).annotations)]) ∧
    ((AnnotationManager.update_geographic_point mOne "p1" "Moved"
      (PyVal.int 3) (PyVal.int 4)).writes =
      mOne.writes ++
        [((AnnotationManager.update_geographic_point mOne "p1" "Moved"
            (PyVal.int 3) (PyVal.int 4)).geographic_points,
          (AnnotationManager.update_geographic_point mOne "p1" "Moved"
            (PyVal.int 3) (PyVal.int 4)).annotations)]) ∧
    AnnotationManager.update_geographic_point mOne "zz" "x"
      (PyVal.int 0) (PyVal.int 0) = mOne ∧
    (( AnnotationManager.remove_annotation mOne "d" "img" 0).writes =
      mOne.writes ++
        [(( AnnotationManager.remove_annotation mOne "d" "img" 0).geographic_points,
          ( AnnotationManager.remove_annotation mOne "d" "img" 0).annotations)]) ∧
    AnnotationManager.remove_annotation mOne "d" "img" 7 = mOne := by
  have h1 := mutating_calls_write_amended mOne "p2" "There"
    (PyVal.int 1) (PyVal.int 2) "d" "img" [] [] 0
  have h2 := mutating_calls_write_amended mOne "p1" "Moved"
    (PyVal.int 3) (PyVal.int 4) "d" "img" [] [] 0
  have h3 := mutating_calls_write_amended mOne "zz" "x"
    (PyVal.int 0) (PyVal.int 0) "d" "img" [] [] 0
  have h4 := mutating_calls_write_amended mOne "k" "n"
    (PyVal.int 0) (PyVal.int 0) "d" "img" [] [] 0
  have h5 := mutating_calls_write_amended mOne "k" "n"
    (PyVal.int 0) (PyVal.int 0) "d" "img" [] [] 7
  exact ⟨h1.1, h2.2.1 rfl, h3.2.2.1 rfl,
    (h4.2.2.2.2.2.2.2.1 (by decide) (by decide)).1,
    (h5.2.2.2.2.2.2.2.2 (by right; decide)).1⟩

/-! ## Claim C7: get_all_annotations -/

theorem pyMerge_get_of_none (base extra : PyDict) (k : String)
    (h : extra.get k = none) :
    (pyMerge base extra).get k = base.get k := by
  induction extra generalizing base with
  | nil => rfl
  | cons p t ih =>
    rw [PyDictOf.get_cons] at h
    by_cases hp : p.1 = k
    · rw [if_pos hp] at h
      exact absurd h (by simp)
    · rw [if_neg hp] at h
      show (pyMerge (base.insert p.1 p.2) t).get k = base.get k
      rw [ih _ h]
      exact PyDictOf.get_insert_ne base p.1 k p.2 (fun hh => hp hh.symm)

theorem map_mapIdx_eq_range_map {α β γ : Type} (l : List α)
    (f : Nat → α → β) (g : β → γ) (e : Nat → γ)
    (h : ∀ i a, a ∈ l → g (f i a) = e i) :
    (l.mapIdx f).map g = (List.range l.length).map e := by
  induction l generalizing f e with
  | nil => rfl
  | cons a t ih =>
    rw [List.mapIdx_cons, List.map_cons, List.length_cons,
      List.range_succ_eq_map, List.map_cons, List.map_map]
    congr 1
    · exact h 0 a (List.mem_cons_self a t)
    · exact ih (fun i x => f (i + 1) x) (fun i => e (i + 1))
        (fun i x hx => h (i + 1) x (List.mem_cons_of_mem a hx))

/-- C7 amended: the flattened view has as many elements as the store has
annotations; provided no stored annotation dict itself uses the reserved
keys `"domain"`, `"image"`, `"index"` (which `**ann` would otherwise let
override the metadata), the elements carry, in insertion order of domains
then images then position, exactly the address triples of the originals,
and these triples are pairwise distinct. -/
theorem get_all_annotations_amended (m : AnnotationManager)
    (hkeys : ∀ dp ∈ m.annotations, ∀ ip ∈ dp.2, ∀ ann ∈ ip.2,
      ann.get "domain" = none ∧ ann.get "image" = none ∧ ann.get "index" = none)
    (hdom : (m.annotations.map Prod.fst).Nodup)
    (himg : ∀ dp ∈ m.annotations, (dp.2.map Prod.fst).Nodup) :
    (AnnotationManager.get_all_annotations m).length = totalAnnCount m ∧
    (AnnotationManager.get_all_annotations m).map
        (fun e => (e.get "domain", e.get "image", e.get "index")) =
      (flatTriples m).map
        (fun t => (some (PyVal.str t.1), some (PyVal.str t.2.1),
          some (PyVal.int t.2.2))) ∧
    (flatTriples m).Nodup := by
  refine ⟨?_, ?_, ?_⟩
  · rw [AnnotationManager.get_all_annotations, totalAnnCount,
      List.length_flatMap]
    apply congrArg List.sum
    refine List.map_congr_left ?_
    intro dp _
    show (dp.2.flatMap _).length = _
    rw [List.length_flatMap]
    apply congrArg List.sum
    refine List.map_congr_left ?_
    intro ip _
    exact List.length_mapIdx
  · unfold AnnotationManager.get_all_annotations flatTriples
    rw [List.map_flatMap, List.map_flatMap]
    apply List.flatMap_congr
    intro dp hdp
    rw [List.map_flatMap, List.map_flatMap]
    apply List.flatMap_congr
    intro ip hip
    rw [List.map_map]
    apply map_mapIdx_eq_range_map
    intro i a ha
    obtain ⟨h1, h2, h3⟩ := hkeys dp hdp ip hip a ha
    show ((pyMerge _ a).get "domain", (pyMerge _ a).get "image",
      (pyMerge _ a).get "index") = _
    rw [pyMerge_get_of_none _ _ _ h1, pyMerge_get_of_none _ _ _ h2,
      pyMerge_get_of_none _ _ _ h3]
    rfl
  · unfold flatTriples
    rw [List.nodup_flatMap]
    constructor
    · intro dp hdp
      rw [List.nodup_flatMap]
      constructor
      · intro ip _
        refine List.Nodup.map ?_ (List.nodup_range _)
        intro x y hxy
        simpa using congrArg (fun t => t.2.2) hxy
      · refine List.Pairwise.imp ?_ (List.pairwise_map.mp (himg dp hdp))
        intro a b hab x hxa hxb
        rcases List.mem_map.mp hxa with ⟨i, _, rfl⟩
        rcases List.mem_map.mp hxb with ⟨j, _, hxx⟩
        exact hab (congrArg (fun t => t.2.1) hxx).symm
    · refine List.Pairwise.imp ?_ (List.pairwise_map.mp hdom)
      intro a b hab x hxa hxb
      rcases List.mem_flatMap.mp hxa with ⟨ip, _, hx⟩
      rcases List.mem_map.mp hx with ⟨i, _, rfl⟩
      rcases List.mem_flatMap.mp hxb with ⟨ip', _, hx'⟩
      rcases List.mem_map.mp hx' with ⟨j, _, hxx⟩
      exact hab (congrArg (fun t => t.1) hxx).symm

/-- Witness for the amended C7 at a concrete one-annotation store. -/
theorem get_all_annotations_amended_witness :
    (AnnotationManager.get_all_annotations mOne).length = totalAnnCount mOne ∧
    (AnnotationManager.get_all_annotations mOne).map
        (fun e => (e.get "domain", e.get "image", e.get "index")) =
      (flatTriples mOne).map
        (fun t => (some (PyVal.str t.1), some (PyVal.str t.2.1),
          some (PyVal.int t.2.2))) ∧
    (flatTriples mOne).Nodup := by
  exact get_all_annotations_amended mOne (by decide) (by decide) (by decide)

/-- Counterexample to C7: when an annotation dict itself contains an
`"index"` key, the `**ann` splat overrides the positional metadata: on
`mIndexKey` the only original annotation sits at position 0, yet the single
returned element reports index 1, so the returned (domain, image, index)
triples do not address the originals. -/
theorem get_all_annotations_cex :
    AnnotationManager.get_all_annotations mIndexKey =
      [[("domain", PyVal.str "d"), ("image", PyVal.str "img"),
        ("index", PyVal.int 1)]] ∧
    (AnnotationManager.get_annotations mIndexKey "d" "img").length = 1 ∧
    PyDictOf.get [("domain", PyVal.str "d"), ("image", PyVal.str "img"),
        ("index", PyVal.int 1)] "index" = some (PyVal.int 1) ∧
    (1 : Int) ≠ (0 : Int) := by
  refine ⟨rfl, rfl, rfl, by decide⟩

/-! ## Claim C2: the download pipeline -/

theorem targetPath_inj (out : List String) (layer : LayerConfig) (a b : Int)
    (h : targetPath out layer a = targetPath out layer b) : a = b := by
  unfold targetPath at h
  have h1 := List.append_cancel_left h
  have h2 : "hour" ++ WrfConfig.pad2 a ++ ".gif" =
      "hour" ++ WrfConfig.pad2 b ++ ".gif" := by
    simpa using h1
  have h3 := congrArg String.data h2
  rw [String.data_append, String.data_append, String.data_append,
    String.data_append] at h3
  have h4 := List.append_cancel_right h3
  have h5 := List.append_cancel_left h4
  exact pad2_injective a b (String.ext h5)

theorem downloadHours_mono {Body : Type} (fetch : String → Body)
    (layer : LayerConfig) (cfg : WrfConfig) (out : List String) :
    ∀ (hours : List Int) (fs : PyDictOf (List String) Body)
      (log : List (Int × String)) fs' log',
      downloadHours fetch layer cfg out hours fs log = .ok (fs', log') →
      ∀ q b, fs.get q = some b → fs'.get q = some b := by
  intro hours
  induction hours with
  | nil =>
    intro fs log fs' log' hrun q b hq
    simp only [downloadHours, Except.ok.injEq, Prod.mk.injEq] at hrun
    rw [← hrun.1]
    exact hq
  | cons hh t ih =>
    intro fs log fs' log' hrun q b hq
    simp only [downloadHours] at hrun
    by_cases hex : (fs.get (targetPath out layer hh)).isSome = true
    · rw [if_pos hex] at hrun
      exact ih fs log fs' log' hrun q b hq
    · rw [if_neg hex] at hrun
      cases hurl : cfg.build_url layer.domain layer.variable_ hh
          (some layer.maptype) with
      | error e =>
        rw [hurl] at hrun
        exact absurd hrun (by simp)
      | ok url =>
        rw [hurl] at hrun
        refine ih _ _ fs' log' hrun q b ?_
        rw [PyDictOf.get_insert]
        by_cases hqp : q = targetPath out layer hh
        · subst hqp
          rw [hq] at hex
          simp at hex
        · rw [if_neg hqp]
          exact hq

theorem downloadHours_log_mono {Body : Type} (fetch : String → Body)
    (layer : LayerConfig) (cfg : WrfConfig) (out : List String) :
    ∀ (hours : List Int) (fs : PyDictOf (List String) Body)
      (log : List (Int × String)) fs' log',
      downloadHours fetch layer cfg out hours fs log = .ok (fs', log') →
      ∀ e ∈ log, e ∈ log' := by
  intro hours
  induction hours with
  | nil =>
    intro fs log fs' log' hrun e he
    simp only [downloadHours, Except.ok.injEq, Prod.mk.injEq] at hrun
    rw [← hrun.2]
    exact he
  | cons hh t ih =>
    intro fs log fs' log' hrun e he
    simp only [downloadHours] at hrun
    by_cases hex : (fs.get (targetPath out layer hh)).isSome = true
    · rw [if_pos hex] at hrun
      exact ih fs log fs' log' hrun e he
    · rw [if_neg hex] at hrun
      cases hurl : cfg.build_url layer.domain layer.variable_ hh
          (some layer.maptype) with
      | error er =>
        rw [hurl] at hrun
        exact absurd hrun (by simp)
      | ok url =>
        rw [hurl] at hrun
        exact ih _ _ fs' log' hrun e (by simp [he])

theorem downloadHours_log_sound {Body : Type} (fetch : String → Body)
    (layer : LayerConfig) (cfg : WrfConfig) (out : List String) :
    ∀ (hours : List Int) (fs : PyDictOf (List String) Body)
      (log : List (Int × String)) fs' log',
      downloadHours fetch layer cfg out hours fs log = .ok (fs', log') →
      ∀ e ∈ log', e ∈ log ∨ ∃ hr ∈ hours, ∃ url, e = (hr, url) ∧
        cfg.build_url layer.domain layer.variable_ hr (some layer.maptype) =
          .ok url ∧
        fs.get (targetPath out layer hr) = none := by
  intro hours
  induction hours with
  | nil =>
    intro fs log fs' log' hrun e he
    simp only [downloadHours, Except.ok.injEq, Prod.mk.injEq] at hrun
    rw [← hrun.2] at he
    exact Or.inl he
  | cons hh t ih =>
    intro fs log fs' log' hrun e he
    simp only [downloadHours] at hrun
    by_cases hex : (fs.get (targetPath out layer hh)).isSome = true
    · rw [if_pos hex] at hrun
      rcases ih fs log fs' log' hrun e he with h | ⟨hr, hmem, url, heq, hurl, hnone⟩
      · exact Or.inl h
      · exact Or.inr ⟨hr, List.mem_cons_of_mem _ hmem, url, heq, hurl, hnone⟩
    · rw [if_neg hex] at hrun
      cases hurl0 : cfg.build_url layer.domain layer.variable_ hh
          (some layer.maptype) with
      | error er =>
        rw [hurl0] at hrun
        exact absurd hrun (by simp)
      | ok url0 =>
        rw [hurl0] at hrun
        have hnone0 : fs.get (targetPath out layer hh) = none := by
          cases hcase : fs.get (targetPath out layer hh) with
          | none => rfl
          | some v => rw [hcase] at hex; simp at hex
        rcases ih _ _ fs' log' hrun e he with h | ⟨hr, hmem, url, heq, hurl, hnone⟩
        · rcases List.mem_append.mp h with h | h
          · exact Or.inl h
          · simp only [List.mem_singleton] at h
            exact Or.inr ⟨hh, List.mem_cons_self hh t, url0, h, hurl0, hnone0⟩
        · refine Or.inr ⟨hr, List.mem_cons_of_mem _ hmem, url, heq, hurl, ?_⟩
          rw [PyDictOf.get_insert] at hnone
          by_cases hqp : targetPath out layer hr = targetPath out layer hh
          · rw [if_pos hqp] at hnone
            exact absurd hnone (by simp)
          · rw [if_neg hqp] at hnone
            exact hnone

theorem downloadHours_fetch {Body : Type} (fetch : String → Body)
    (layer : LayerConfig) (cfg : WrfConfig) (out : List String) :
    ∀ (hours : List Int) (fs : PyDictOf (List String) Body)
      (log : List (Int × String)) fs' log',
      downloadHours fetch layer cfg out hours fs log = .ok (fs', log') →
      ∀ hr ∈ hours, fs.get (targetPath out layer hr) = none →
      ∃ url, cfg.build_url layer.domain layer.variable_ hr
          (some layer.maptype) = .ok url ∧
        fs'.get (targetPath out layer hr) = some (fetch url) ∧
        (hr, url) ∈ log' := by
  intro hours
  induction hours with
  | nil =>
    intro fs log fs' log' hrun hr hmem
    exact absurd hmem (List.not_mem_nil hr)
  | cons hh t ih =>
    intro fs log fs' log' hrun hr hmem hnone
    simp only [downloadHours] at hrun
    by_cases hex : (fs.get (targetPath out layer hh)).isSome = true
    · rw [if_pos hex] at hrun
      rcases List.mem_cons.mp hmem with heq | hmem'
      · subst heq
        rw [hnone] at hex
        simp at hex
      · exact ih fs log fs' log' hrun hr hmem' hnone
    · rw [if_neg hex] at hrun
      cases hurl0 : cfg.build_url layer.domain layer.variable_ hh
          (some layer.maptype) with
      | error er =>
        rw [hurl0] at hrun
        exact absurd hrun (by simp)
      | ok url0 =>
        rw [hurl0] at hrun
        have hsame : hr = hh → ∃ url,
            cfg.build_url layer.domain layer.variable_ hr
              (some layer.maptype) = .ok url ∧
            fs'.get (targetPath out layer hr) = some (fetch url) ∧
            (hr, url) ∈ log' := by
          intro heq
          subst heq
          refine ⟨url0, hurl0, ?_, ?_⟩
          · exact downloadHours_mono fetch layer cfg out t _ _ fs' log' hrun
              (targetPath out layer hr) (fetch url0)
              (PyDictOf.get_insert_self _ _ _)
          · exact downloadHours_log_mono fetch layer cfg out t _ _ fs' log' hrun
              (hr, url0) (by simp)
        rcases List.mem_cons.mp hmem with heq | hmem'
        · exact hsame heq
        · by_cases hqp : targetPath out layer hr = targetPath out layer hh
          · exact hsame (targetPath_inj out layer hr hh hqp)
          · refine ih _ _ fs' log' hrun hr hmem' ?_
            rw [PyDictOf.get_insert, if_neg hqp]
            exact hnone

/-- C2: over the resolved forecast-hour list, an hour whose deterministic
target path `outputRoot/domain/variable/hour{HH}.gif` already holds a file is
skipped — the stored bytes are unchanged and no fetch is issued by that
hour's iteration — while an hour whose target is absent has its resolved
address fetched and the response body written at exactly that path. -/
theorem download_layer_skip_or_fetch {Body : Type} (fetch : String → Body)
    (layer : LayerConfig) (cfg : WrfConfig) (out : List String)
    (fs fs' : PyDictOf (List String) Body) (log : List (Int × String))
    (hours : List Int) (hr : Int)
    (hres : cfg.get_forecast_hours layer.forecast_schedule = .ok hours)
    (hrun : download_layer fetch layer cfg out fs = .ok (fs', log))
    (hmem : hr ∈ hours) :
    (∀ b, fs.get (targetPath out layer hr) = some b →
      fs'.get (targetPath out layer hr) = some b ∧ ∀ url, (hr, url) ∉ log) ∧
    (fs.get (targetPath out layer hr) = none →
      ∃ url, cfg.build_url layer.domain layer.variable_ hr
          (some layer.maptype) = .ok url ∧
        fs'.get (targetPath out layer hr) = some (fetch url) ∧
        (hr, url) ∈ log) := by
  unfold download_layer at hrun
  rw [hres] at hrun
  constructor
  · intro b hb
    refine ⟨downloadHours_mono fetch layer cfg out hours fs [] fs' log hrun
      _ b hb, ?_⟩
    intro url hentry
    rcases downloadHours_log_sound fetch layer cfg out hours fs [] fs' log
        hrun (hr, url) hentry with h | ⟨hr2, _, url2, heq, _, hnone⟩
    · exact absurd h (List.not_mem_nil _)
    · have hfst : hr = hr2 := congrArg Prod.fst heq
      rw [← hfst] at hnone
      rw [hnone] at hb
      exact Option.noConfusion hb
  · intro hnone
    exact downloadHours_fetch fetch layer cfg out hours fs [] fs' log hrun
      hr hmem hnone

/-- Witness for C2: with hours `[0, 12]` and `hour00.gif` already present,
only hour 12 is fetched; the existing file is untouched and no fetch is
logged for hour 0. -/
theorem download_layer_skip_or_fetch_witness :
    download_layer (fun u => u) layerSmall cfgSmall ["out"]
        [(["out", "d1", "v1", "hour00.gif"], "existing")] =
      .ok ([(["out", "d1", "v1", "hour00.gif"], "existing"),
            (["out", "d1", "v1", "hour12.gif"],
              "https://a.atmos.washington.edu/wrfrt/data/timeindep/images_D/MV.12.0000.gif")],
           [((12 : Int),
              "https://a.atmos.washington.edu/wrfrt/data/timeindep/images_D/MV.12.0000.gif")]) ∧
    (PyDictOf.get [(["out", "d1", "v1", "hour00.gif"], "existing"),
        (["out", "d1", "v1", "hour12.gif"],
          "https://a.atmos.washington.edu/wrfrt/data/timeindep/images_D/MV.12.0000.gif")]
        (targetPath ["out"] layerSmall 0) = some "existing" ∧
      ∀ url, ((0 : Int), url) ∉
        [((12 : Int),
          "https://a.atmos.washington.edu/wrfrt/data/timeindep/images_D/MV.12.0000.gif")]) ∧
    (∃ url, cfgSmall.build_url layerSmall.domain layerSmall.variable_ 12
        (some layerSmall.maptype) = .ok url ∧
      PyDictOf.get [(["out", "d1", "v1", "hour00.gif"], "existing"),
          (["out", "d1", "v1", "hour12.gif"],
            "https://a.atmos.washington.edu/wrfrt/data/timeindep/images_D/MV.12.0000.gif")]
          (targetPath ["out"] layerSmall 12) = some url ∧
      ((12 : Int), url) ∈
        [((12 : Int),
          "https://a.atmos.washington.edu/wrfrt/data/timeindep/images_D/MV.12.0000.gif")]) := by
  have hrun : download_layer (fun u => u) layerSmall cfgSmall ["out"]
      [(["out", "d1", "v1", "hour00.gif"], "existing")] =
    .ok ([(["out", "d1", "v1", "hour00.gif"], "existing"),
          (["out", "d1", "v1", "hour12.gif"],
            "https://a.atmos.washington.edu/wrfrt/data/timeindep/images_D/MV.12.0000.gif")],
         [((12 : Int),
            "https://a.atmos.washington.edu/wrfrt/data/timeindep/images_D/MV.12.0000.gif")]) := rfl
  have h0 := (download_layer_skip_or_fetch (fun u => u) layerSmall cfgSmall
    ["out"] _ _ _ [0, 12] 0 rfl hrun (by decide)).1 "existing" rfl
  have h12 := (download_layer_skip_or_fetch (fun u => u) layerSmall cfgSmall
    ["out"] _ _ _ [0, 12] 12 rfl hrun (by decide)).2 rfl
  exact ⟨hrun, h0, h12⟩
